import Mathlib

/-!
# A REST user service over a document store: handlers, identifier codec, routing, startup

Shallow embedding of `src/controllers/user.go` and `src/main.go`.

* Go strings and byte slices are lists of bytes (`GoString`).
* An `http.ResponseWriter` is a record (`ResponseWriter`) with the live header
  map, the status line once written, the headers sent with it, and the body.
* The MongoDB collection is an interface record (`Collection`) over an abstract
  store state; every call a handler issues is appended to a call log, so that
  "no query was issued" is a statement about that log.
* Library functions the handlers call (`encoding/hex`, `primitive.ObjectID`,
  `fmt.Fprint`, `http.Error`, `httprouter`) are modelled after their documented
  behaviour; `encoding/json` is taken as a parameter (`Json`).
-/

set_option autoImplicit false

namespace UserApi

deriving instance DecidableEq for Except

/-! ## Bytes and strings -/

/-- One byte. -/
abbrev Byte := Fin 256

/-- Go `string` / `[]byte`: a sequence of bytes. -/
abbrev GoString := List Byte

/-- Go `error`, observed through its `Error()` text. -/
abbrev GoError := GoString

/-- Bytes of an ASCII string literal. -/
def lit (s : String) : GoString :=
  s.toList.map (fun c => Fin.ofNat c.toNat)

/-! ## `encoding/hex` -/

/-- The table `hextable = "0123456789abcdef"` of `encoding/hex`. -/
def hextable : List Byte :=
  [48, 49, 50, 51, 52, 53, 54, 55, 56, 57, 97, 98, 99, 100, 101, 102]

/-- Entry of `reverseHexTable` of `encoding/hex`: the value of a hex digit,
`none` standing for the table's `0xff`. -/
def fromHexChar (c : Byte) : Option Nat :=
  if 48 ≤ c.val ∧ c.val ≤ 57 then some (c.val - 48)
  else if 97 ≤ c.val ∧ c.val ≤ 102 then some (c.val - 97 + 10)
  else if 65 ≤ c.val ∧ c.val ≤ 70 then some (c.val - 65 + 10)
  else none

/-- The byte is an ASCII hexadecimal digit `0-9`, `a-f` or `A-F`. -/
def isHexDigit (c : Byte) : Bool :=
  (48 ≤ c.val && c.val ≤ 57) || (97 ≤ c.val && c.val ≤ 102) || (65 ≤ c.val && c.val ≤ 70)

/-- ASCII lower-casing of one byte. -/
def toLower (c : Byte) : Byte :=
  if 65 ≤ c.val ∧ c.val ≤ 90 then Fin.ofNat (c.val + 32) else c

/-- Errors of `hex.Decode`. -/
inductive HexError where
  | invalidByte (b : Byte)
  | errLength
  | errInvalidHex
  deriving DecidableEq, Repr

/-- Decoding `hex.Decode`: pairs of digits become bytes; the first bad digit is
reported, and an odd length is reported after the digits before it. -/
def hexDecode : GoString → Except HexError (List Byte)
  | [] => .ok []
  | [p] =>
    match fromHexChar p with
    | none => .error (.invalidByte p)
    | some _ => .error .errLength
  | p :: q :: rest =>
    match fromHexChar p with
    | none => .error (.invalidByte p)
    | some a =>
      match fromHexChar q with
      | none => .error (.invalidByte q)
      | some b =>
        match hexDecode rest with
        | .error e => .error e
        | .ok bs => .ok (Fin.ofNat (a * 16 + b) :: bs)

/-- Encoding `hex.Encode`: each byte `v` gives `hextable[v>>4]`, `hextable[v&0x0f]`. -/
def hexEncode : List Byte → GoString
  | [] => []
  | v :: rest => hextable.getD (v.val / 16) 0 :: hextable.getD (v.val % 16) 0 :: hexEncode rest

/-! ## `primitive.ObjectID` -/

/-- The type `primitive.ObjectID`, Go `[12]byte`. -/
abbrev ObjectID := { l : List Byte // l.length = 12 }

/-- The zero identifier `primitive.NilObjectID`. -/
def NilObjectID : ObjectID := ⟨List.replicate 12 0, by simp⟩

/-- Go `var oid [12]byte; copy(oid[:], b)`. -/
def copyToOID (b : List Byte) : ObjectID :=
  ⟨(b ++ List.replicate 12 0).take 12, by simp⟩

/-- Modelled from the spec: `primitive.ObjectIDFromHex` of the MongoDB driver, which
is not under `src/`. Section 4.1: succeeds with the decoded 12 bytes, or fails when
the string is not exactly 24 hex characters. The body follows the driver: a length
check, then `hex.Decode` into a 12-byte array. -/
def ObjectIDFromHex (s : GoString) : Except HexError ObjectID :=
  if s.length ≠ 24 then .error .errInvalidHex
  else
    match hexDecode s with
    | .error e => .error e
    | .ok b => .ok (copyToOID b)

/-- Method `ObjectID.Hex`: the 24-character lower-case hex form. -/
def ObjectID.Hex (id : ObjectID) : GoString := hexEncode id.val

/-- Method `ObjectID.String`: Go `fmt.Sprintf("ObjectID(%q)", id.Hex())`. -/
def ObjectID.String (id : ObjectID) : GoString :=
  lit "ObjectID(\"" ++ id.Hex ++ lit "\")"

/-- The string is exactly 24 hexadecimal characters. -/
def isHex24 (s : GoString) : Bool :=
  s.length == 24 && s.all isHexDigit

/-! ## The user record and `encoding/json` -/

/-- Modelled from the spec: the record `models.User`; package `models` is not under
`src/`. Section 3 gives it the identifier and the string attributes name and email. -/
structure User where
  ID : ObjectID
  Name : GoString
  Email : GoString
  deriving DecidableEq

/-- The Go zero value `models.User{}`. -/
def User.zero : User := ⟨NilObjectID, [], []⟩

/-- The two entry points of `encoding/json` the handlers use. `Marshal u` is
`json.Marshal(u)`. `Decode body u` is `json.NewDecoder(body).Decode(&u)`: the record
as the decoder left it, and the error it returned, if any. -/
structure Json where
  Marshal : User → Except GoError GoString
  Decode : GoString → User → User × Option GoError

/-! ## `http.ResponseWriter` -/

/-- State of an `http.ResponseWriter`: the live header map, the status code once the
status line is written, the headers that went out with it, and the body bytes. -/
structure ResponseWriter where
  header : List (GoString × GoString)
  status : Option Nat
  sent : List (GoString × GoString)
  body : GoString
  deriving DecidableEq

/-- A writer nothing has been written to. -/
def ResponseWriter.new : ResponseWriter := ⟨[], none, [], []⟩

/-- Go `w.Header().Set(k, v)`. -/
def ResponseWriter.HeaderSet (w : ResponseWriter) (k v : GoString) : ResponseWriter :=
  { w with header := (k, v) :: w.header.filter (fun kv => kv.1 ≠ k) }

/-- Go `w.Header().Del(k)`. -/
def ResponseWriter.HeaderDel (w : ResponseWriter) (k : GoString) : ResponseWriter :=
  { w with header := w.header.filter (fun kv => kv.1 ≠ k) }

/-- Go `w.WriteHeader(code)`: the first call writes the status line with the current
headers; later calls are ignored. -/
def ResponseWriter.WriteHeader (w : ResponseWriter) (code : Nat) : ResponseWriter :=
  match w.status with
  | some _ => w
  | none => { w with status := some code, sent := w.header }

/-- Go `w.Write(b)`: writes status 200 first when no status line is out yet. -/
def ResponseWriter.Write (w : ResponseWriter) (b : GoString) : ResponseWriter :=
  let w1 := w.WriteHeader 200
  { w1 with body := w1.body ++ b }

/-- Go `http.Error(w, msg, code)`. -/
def httpError (w : ResponseWriter) (msg : GoString) (code : Nat) : ResponseWriter :=
  let w1 := w.HeaderDel (lit "Content-Length")
  let w2 := w1.HeaderSet (lit "Content-Type") (lit "text/plain; charset=utf-8")
  let w3 := w2.HeaderSet (lit "X-Content-Type-Options") (lit "nosniff")
  let w4 := w3.WriteHeader code
  w4.Write (msg ++ lit "\n")

/-! ## The document store -/

/-- One call on the collection, as issued by a handler. -/
inductive StoreCall where
  | findOne (id : ObjectID)
  | insertOne (u : User)
  | deleteOne (id : ObjectID)
  deriving DecidableEq

/-- The collection `Database("mongo-golang").Collection("users")` over a store state.
`FindOne s id` is `FindOne(ctx, bson.M{"_id": id}).Decode(&user)`; `InsertOne s u`
gives the new state and the error, if any; `DeleteOne s id` gives the new state and
either the error or `DeletedCount`. -/
structure Collection (σ : Type) where
  FindOne : σ → ObjectID → Except GoError User
  InsertOne : σ → User → σ × Option GoError
  DeleteOne : σ → ObjectID → σ × Except GoError Nat

/-- The struct `UserController`; its client is narrowed to the one collection the
handlers open. -/
structure UserController (σ : Type) where
  Client : Collection σ

/-- The constructor `NewUserController`. -/
def NewUserController {σ : Type} (s : Collection σ) : UserController σ := ⟨s⟩

/-- The type `httprouter.Params`. -/
abbrev Params := List (GoString × GoString)

/-- The lookup `Params.ByName`: value of the first parameter of that name, else "". -/
def Params.ByName : Params → GoString → GoString
  | [], _ => []
  | (k, v) :: rest, name => if k = name then v else Params.ByName rest name

/-- The part of `*http.Request` the handlers read. -/
structure Request where
  Method : GoString
  Path : GoString
  Body : GoString

/-- What a handler runs against and leaves behind: the response writer, the store,
the calls issued on the collection so far, and the lines printed to standard output. -/
structure Ctx (σ : Type) where
  w : ResponseWriter
  db : σ
  calls : List StoreCall
  stdout : List GoString

/-- A fresh request context over a store state. -/
def Ctx.start {σ : Type} (db : σ) : Ctx σ := ⟨ResponseWriter.new, db, [], []⟩

/-! ## Handlers (`src/controllers/user.go`) -/

/-- Handler `UserController.GetUser`. -/
def UserController.GetUser {σ : Type} (uc : UserController σ) (J : Json)
    (_r : Request) (p : Params) (c : Ctx σ) : Ctx σ :=
  let id := Params.ByName p (lit "id")
  match ObjectIDFromHex id with
  | .error _ => { c with w := c.w.WriteHeader 404 }
  | .ok _ =>
    match ObjectIDFromHex id with
    | .error _ => { c with w := c.w.WriteHeader 500 }
    | .ok oid =>
      let u := User.zero
      let c1 := { c with calls := c.calls ++ [StoreCall.findOne oid] }
      match uc.Client.FindOne c1.db oid with
      | .error _ => { c1 with w := c1.w.WriteHeader 404 }
      | .ok _user =>
        let (uj, c2) : GoString × Ctx σ :=
          match J.Marshal u with
          | .error err => ([], { c1 with stdout := c1.stdout ++ [err ++ lit "\n"] })
          | .ok uj => (uj, c1)
        let w1 := c2.w.HeaderSet (lit "Content-Type") (lit "application/json")
        let w2 := w1.WriteHeader 200
        { c2 with w := w2.Write (uj ++ lit "\n") }

/-- Handler `UserController.CreateUser`; `fresh` is what `primitive.NewObjectID()`
returns in this call. -/
def UserController.CreateUser {σ : Type} (uc : UserController σ) (J : Json)
    (fresh : ObjectID) (r : Request) (_p : Params) (c : Ctx σ) : Ctx σ :=
  let u0 := User.zero
  let u1 := (J.Decode r.Body u0).1
  let u : User := { u1 with ID := fresh }
  let collection := uc.Client
  let (db1, _err) := collection.InsertOne c.db u
  let c1 : Ctx σ := { c with db := db1, calls := c.calls ++ [StoreCall.insertOne u] }
  match J.Marshal u with
  | .error _ => c1
  | .ok uj =>
    let c2 := { c1 with stdout := c1.stdout ++ [uj ++ lit "\n"] }
    let w1 := c2.w.HeaderSet (lit "Content-Type") (lit "application/json")
    let w2 := w1.WriteHeader 201
    match J.Marshal u with
    | .error err => { c2 with w := httpError w2 err 500 }
    | .ok userJSON => { c2 with w := w2.Write (userJSON ++ lit "\n") }

/-- Handler `UserController.DeleteUser`. The body written on success is
`fmt.Fprint(w, "Deleted user", oid, "\n")`: no space is put next to a string operand,
and `oid` prints through its `String` method. -/
def UserController.DeleteUser {σ : Type} (uc : UserController σ)
    (_r : Request) (p : Params) (c : Ctx σ) : Ctx σ :=
  let id := Params.ByName p (lit "id")
  match ObjectIDFromHex id with
  | .error _ => { c with w := c.w.WriteHeader 404 }
  | .ok _ =>
    match ObjectIDFromHex id with
    | .error _ => c
    | .ok oid =>
      let (db1, result) := uc.Client.DeleteOne c.db oid
      let c1 : Ctx σ := { c with db := db1, calls := c.calls ++ [StoreCall.deleteOne oid] }
      match result with
      | .error _ => { c1 with w := c1.w.WriteHeader 404 }
      | .ok deletedCount =>
        if deletedCount = 0 then { c1 with w := c1.w.WriteHeader 404 }
        else
          let w1 := c1.w.WriteHeader 200
          { c1 with w := w1.Write (lit "Deleted user" ++ oid.String ++ lit "\n") }

/-! ## Routing (`httprouter`) and startup (`src/main.go`) -/

/-- The three handlers `main` registers. -/
inductive HandlerId where
  | getUser
  | createUser
  | deleteUser
  deriving DecidableEq, Repr

/-- One registered route: method, path pattern, handler. -/
structure Route where
  method : GoString
  pattern : GoString
  handle : HandlerId
  deriving DecidableEq

/-- The router `*httprouter.Router`: its registered routes. -/
abbrev Router := List Route

/-- The constructor `httprouter.New`. -/
def Router.New : Router := []

/-- Registration `r.Handle(method, path, h)`; `GET`, `POST` and `DELETE` are this
with the method fixed. -/
def Router.Handle (r : Router) (method path : GoString) (h : HandlerId) : Router :=
  r ++ [⟨method, path, h⟩]

/-- The segments of a path between its slashes. -/
def splitSlash : GoString → List GoString
  | [] => [[]]
  | c :: cs =>
    if c = 47 then [] :: splitSlash cs
    else
      match splitSlash cs with
      | [] => [[c]]
      | seg :: segs => (c :: seg) :: segs

/-- Matching of pattern segments against path segments, as `httprouter` matches the
two kinds of segment `main` registers: a segment `:name` takes one non-empty path
segment and binds it, any other segment must be equal. -/
def matchSegs : List GoString → List GoString → Option Params
  | [], [] => some []
  | pat :: pats, seg :: segs =>
    match pat with
    | 58 :: name =>
      if seg = [] then none
      else
        match matchSegs pats segs with
        | none => none
        | some ps => some ((name, seg) :: ps)
    | _ => if pat = seg then matchSegs pats segs else none
  | _, _ => none

/-- Lookup of a request in the router: the first route of that method whose pattern
matches the path, with the parameters bound. -/
def Router.lookup : Router → GoString → GoString → Option (HandlerId × Params)
  | [], _, _ => none
  | rt :: rest, method, path =>
    if rt.method = method then
      match matchSegs (splitSlash rt.pattern) (splitSlash path) with
      | some ps => some (rt.handle, ps)
      | none => Router.lookup rest method path
    else Router.lookup rest method path

/-- The routes `main` registers, in order (`src/main.go`, lines 21 to 23). -/
def mainRoutes : Router :=
  ((Router.New.Handle (lit "GET") (lit "/") .getUser).Handle
    (lit "POST") (lit "/user") .createUser).Handle
    (lit "DELETE") (lit "/user/:id") .deleteUser

/-- Invocation of a registered handler by the router. -/
def invoke {σ : Type} (uc : UserController σ) (J : Json) (fresh : ObjectID)
    (h : HandlerId) (r : Request) (p : Params) (c : Ctx σ) : Ctx σ :=
  match h with
  | .getUser => uc.GetUser J r p c
  | .createUser => uc.CreateUser J fresh r p c
  | .deleteUser => uc.DeleteUser r p c

/-- The router's `ServeHTTP` restricted to matched requests: the context the matched
handler leaves, or `none` when no route of that method matches and the router
answers on its own. -/
def serveMatched {σ : Type} (uc : UserController σ) (J : Json) (fresh : ObjectID)
    (rt : Router) (r : Request) (c : Ctx σ) : Option (Ctx σ) :=
  match rt.lookup r.Method r.Path with
  | some (h, ps) => some (invoke uc J fresh h r ps c)
  | none => none

/-- The two driver calls `getMongoClient` makes: `mongo.Connect` on a URI and
`client.Ping`. -/
structure Driver (κ : Type) where
  Connect : GoString → Except GoError κ
  Ping : κ → Option GoError

/-- What the process did, in order. -/
inductive Event where
  | connect (uri : GoString)
  | ping
  | fatal (err : GoError)
  | handle (method path : GoString)
  | listenAndServe (addr : GoString)
  deriving DecidableEq

/-- A run of startup code: the events so far and the value returned, `none` when
`log.Fatal` ended the process. -/
structure Run (α : Type) where
  trace : List Event
  result : Option α

/-- The function `getMongoClient`. -/
def getMongoClient {κ : Type} (d : Driver κ) : Run κ :=
  let uri := lit "mongodb://localhost:27017"
  match d.Connect uri with
  | .error err => ⟨[.connect uri, .fatal err], none⟩
  | .ok client =>
    match d.Ping client with
    | some err => ⟨[.connect uri, .ping, .fatal err], none⟩
    | none => ⟨[.connect uri, .ping], some client⟩

/-- The function `main`, up to the call of `http.ListenAndServe`: the result is the
router being served on `:8080`, or `none` when the process ended before. -/
def main {κ : Type} (d : Driver κ) : Run Router :=
  let r0 := Router.New
  match getMongoClient d with
  | ⟨t, none⟩ => ⟨t, none⟩
  | ⟨t, some _client⟩ =>
    let r1 := r0.Handle (lit "GET") (lit "/") .getUser
    let r2 := r1.Handle (lit "POST") (lit "/user") .createUser
    let r3 := r2.Handle (lit "DELETE") (lit "/user/:id") .deleteUser
    ⟨t ++ [.handle (lit "GET") (lit "/"), .handle (lit "POST") (lit "/user"),
        .handle (lit "DELETE") (lit "/user/:id"), .listenAndServe (lit ":8080")], some r3⟩

/-! ## A reference store and a reference codec, for running the handlers -/

/-- Store state of the reference store: a map keyed by identifier. -/
abbrev MapStore := ObjectID → Option User

/-- The empty store. -/
def MapStore.empty : MapStore := fun _ => none

/-- Modelled from the spec: the document store as a map keyed by identifier
(section 3: every persisted User has a unique id; section 4.3: find, insert and
delete by id). The database itself is outside the repository. Find on an absent key
fails, insert binds the record's id, delete removes the key and counts it. -/
def mapCollection : Collection MapStore where
  FindOne s id :=
    match s id with
    | some u => .ok u
    | none => .error (lit "mongo: no documents in result")
  InsertOne s u :=
    match s u.ID with
    | some _ => (s, some (lit "duplicate key"))
    | none => (fun k => if k = u.ID then some u else s k, none)
  DeleteOne s id :=
    match s id with
    | some _ => (fun k => if k = id then none else s k, .ok 1)
    | none => (s, .ok 0)

/-- A store whose every call fails, as when the database is unreachable. -/
def failingCollection : Collection Unit where
  FindOne _ _ := .error (lit "server selection error")
  InsertOne s _ := (s, some (lit "server selection error"))
  DeleteOne s _ := (s, .error (lit "server selection error"))

/-- A small stand-in for `encoding/json`, enough to run the handlers on concrete
requests: the encoder writes the three fields in order without escaping; the decoder
knows the one document of the scenario of section 8 and reports a syntax error on
anything else, leaving the record as it was. -/
def sampleJson : Json where
  Marshal u :=
    .ok (lit "\x7b\"id\":\"" ++ u.ID.Hex ++ lit "\",\"name\":\"" ++ u.Name
      ++ lit "\",\"email\":\"" ++ u.Email ++ lit "\"\x7d")
  Decode body u :=
    if body = lit "\x7b\"name\":\"Ada\",\"email\":\"ada@example.com\"\x7d" then
      ({ u with Name := lit "Ada", Email := lit "ada@example.com" }, none)
    else (u, some (lit "invalid character"))

/-- A sample identifier, `507f1f77bcf86cd799439011`. -/
def sampleID : ObjectID :=
  ⟨[0x50, 0x7f, 0x1f, 0x77, 0xbc, 0xf8, 0x6c, 0xd7, 0x99, 0x43, 0x90, 0x11], by decide⟩

/-- The context `CreateUser` leaves on the empty reference store for the scenario of
section 8: body `{"name":"Ada","email":"ada@example.com"}`, generated id `sampleID`. -/
def afterCreate : Ctx MapStore :=
  (NewUserController mapCollection).CreateUser sampleJson sampleID
    ⟨lit "POST", lit "/user", lit "\x7b\"name\":\"Ada\",\"email\":\"ada@example.com\"\x7d"⟩
    [] (Ctx.start MapStore.empty)

/-- The fetch that follows, with the id `CreateUser` returned as path parameter. -/
def fetchAfterCreate : Ctx MapStore :=
  (NewUserController mapCollection).GetUser sampleJson
    ⟨lit "GET", lit "/user/507f1f77bcf86cd799439011", []⟩
    [(lit "id", lit "507f1f77bcf86cd799439011")] (Ctx.start afterCreate.db)

example : ObjectIDFromHex (lit "abc") = .error .errInvalidHex := by decide
example : ObjectIDFromHex (lit "507f1f77bcf86cd799439011") = .ok sampleID := by decide
example : sampleID.Hex = lit "507f1f77bcf86cd799439011" := by decide
example : ObjectIDFromHex (lit "507f1f77bcf86cd79943901z") = .error (.invalidByte 122) := by
  decide
example : mainRoutes.lookup (lit "GET") (lit "/") = some (.getUser, []) := by decide
example : mainRoutes.lookup (lit "GET") (lit "/user/507f1f77bcf86cd799439011") = none := by
  decide
example : mainRoutes.lookup (lit "DELETE") (lit "/user/507f1f77bcf86cd799439011")
    = some (.deleteUser, [(lit "id", lit "507f1f77bcf86cd799439011")]) := by decide
example : mainRoutes.lookup (lit "DELETE") (lit "/user/") = none := by decide
example : ((NewUserController failingCollection).CreateUser sampleJson sampleID
    ⟨lit "POST", lit "/user", lit "not json"⟩ [] (Ctx.start ())).w.status = some 201 := by
  decide

/-! ## Facts about the hex codec -/

set_option maxRecDepth 100000 in
theorem fromHexChar_isSome (c : Byte) : (fromHexChar c).isSome = isHexDigit c := by
  revert c; decide

set_option maxRecDepth 100000 in
theorem fromHexChar_spec (c : Byte) :
    (fromHexChar c).all (fun v => decide (v < 16) && hextable.getD v 0 == toLower c) = true := by
  revert c; decide

set_option maxRecDepth 100000 in
theorem fromHexChar_hextable (n : Fin 16) : fromHexChar (hextable.getD n.val 0) = some n.val := by
  revert n; decide

theorem fromHexChar_some {c : Byte} {v : Nat} (h : fromHexChar c = some v) :
    v < 16 ∧ hextable.getD v 0 = toLower c := by
  have := fromHexChar_spec c
  rw [h] at this
  simpa using this

theorem fromHexChar_none {c : Byte} (h : fromHexChar c = none) : isHexDigit c = false := by
  have := fromHexChar_isSome c
  rw [h] at this
  simpa using this.symm

theorem isHexDigit_of_some {c : Byte} {v : Nat} (h : fromHexChar c = some v) :
    isHexDigit c = true := by
  have := fromHexChar_isSome c
  rw [h] at this
  simpa using this.symm

theorem ofNat_pair {a b : Nat} (ha : a < 16) (hb : b < 16) :
    ((Fin.ofNat (a * 16 + b) : Byte).val / 16 = a) ∧
      ((Fin.ofNat (a * 16 + b) : Byte).val % 16 = b) := by
  have hv : (Fin.ofNat (a * 16 + b) : Byte).val = a * 16 + b := by
    simp only [Fin.ofNat]
    omega
  rw [hv]
  omega

theorem hexDecode_ok : ∀ (s : GoString) (b : List Byte), hexDecode s = .ok b →
    s.length = 2 * b.length ∧ s.all isHexDigit = true ∧ hexEncode b = s.map toLower
  | [], b, h => by
    simp only [hexDecode, Except.ok.injEq] at h
    subst h
    simp [hexEncode]
  | [p], b, h => by
    simp only [hexDecode] at h
    split at h <;> simp at h
  | p :: q :: rest, b, h => by
    simp only [hexDecode] at h
    split at h
    · simp at h
    · rename_i a ha
      split at h
      · simp at h
      · rename_i v hv
        split at h
        · simp at h
        · rename_i bs hbs
          simp only [Except.ok.injEq] at h
          subst h
          obtain ⟨h1, h2, h3⟩ := hexDecode_ok rest bs hbs
          obtain ⟨ha16, hat⟩ := fromHexChar_some ha
          obtain ⟨hv16, hvt⟩ := fromHexChar_some hv
          obtain ⟨e1, e2⟩ := ofNat_pair ha16 hv16
          refine ⟨?_, ?_, ?_⟩
          · simp only [List.length_cons]; omega
          · simp only [List.all_cons, isHexDigit_of_some ha, isHexDigit_of_some hv, h2,
              Bool.and_self]
          · simp only [hexEncode, e1, e2, hat, hvt, h3, List.map_cons]

theorem hexDecode_of_hex : ∀ (s : GoString), s.length % 2 = 0 → s.all isHexDigit = true →
    ∃ b, hexDecode s = .ok b
  | [], _, _ => ⟨[], rfl⟩
  | [p], h, _ => by simp at h
  | p :: q :: rest, hlen, hall => by
    simp only [List.all_cons, Bool.and_eq_true] at hall
    obtain ⟨hp, hq, hrest⟩ := hall
    have hlen2 : rest.length % 2 = 0 := by
      simp only [List.length_cons] at hlen; omega
    obtain ⟨bs, hbs⟩ := hexDecode_of_hex rest hlen2 hrest
    have h1 := fromHexChar_isSome p
    have h2 := fromHexChar_isSome q
    rw [hp] at h1
    rw [hq] at h2
    obtain ⟨a, ha⟩ := Option.isSome_iff_exists.mp h1
    obtain ⟨v, hv⟩ := Option.isSome_iff_exists.mp h2
    exact ⟨Fin.ofNat (a * 16 + v) :: bs, by simp only [hexDecode, ha, hv, hbs]⟩

theorem hexDecode_hexEncode : ∀ (b : List Byte), hexDecode (hexEncode b) = .ok b
  | [] => rfl
  | v :: rest => by
    have h1 := fromHexChar_hextable ⟨v.val / 16, by omega⟩
    have h2 := fromHexChar_hextable ⟨v.val % 16, by omega⟩
    have hv : (Fin.ofNat (v.val / 16 * 16 + v.val % 16) : Byte) = v := by
      apply Fin.ext
      simp only [Fin.ofNat]
      omega
    simp only [hexEncode, hexDecode, h1, h2, hexDecode_hexEncode rest, hv]

theorem hexEncode_length (b : List Byte) : (hexEncode b).length = 2 * b.length := by
  induction b with
  | nil => rfl
  | cons v rest ih => simp only [hexEncode, List.length_cons, ih]; omega

theorem copyToOID_val {b : List Byte} (h : b.length = 12) : (copyToOID b).val = b := by
  simp only [copyToOID]
  rw [List.take_append_of_le_length (by omega)]
  exact List.take_of_length_le (by omega)

/-- Validation succeeds exactly on 24 hexadecimal characters. -/
theorem ObjectIDFromHex_ok_iff (s : GoString) :
    (∃ id, ObjectIDFromHex s = .ok id) ↔ isHex24 s = true := by
  unfold ObjectIDFromHex isHex24
  constructor
  · rintro ⟨id, h⟩
    split at h
    · simp at h
    · rename_i hlen
      split at h
      · simp at h
      · rename_i b hb
        obtain ⟨_, h2, _⟩ := hexDecode_ok s b hb
        simp only [ne_eq, Decidable.not_not] at hlen
        simp [hlen, h2]
  · intro h
    simp only [Bool.and_eq_true, beq_iff_eq] at h
    obtain ⟨hlen, hall⟩ := h
    obtain ⟨b, hb⟩ := hexDecode_of_hex s (by omega) hall
    exact ⟨copyToOID b, by simp [hlen, hb]⟩

/-- Validation fails exactly off the 24 hexadecimal characters. -/
theorem ObjectIDFromHex_error_iff (s : GoString) :
    (∃ e, ObjectIDFromHex s = .error e) ↔ isHex24 s = false := by
  have h := ObjectIDFromHex_ok_iff s
  cases hs : ObjectIDFromHex s with
  | error e =>
    rw [hs] at h
    simp only [exists_false, false_iff, Bool.not_eq_true, reduceCtorEq] at h
    simp [h]
  | ok id =>
    rw [hs] at h
    have : isHex24 s = true := h.mp ⟨id, rfl⟩
    simp [this]

theorem ObjectIDFromHex_ok_hex {s : GoString} {id : ObjectID} (h : ObjectIDFromHex s = .ok id) :
    s.length = 24 ∧ id.Hex = s.map toLower := by
  unfold ObjectIDFromHex at h
  split at h
  · simp at h
  · rename_i hlen
    simp only [ne_eq, Decidable.not_not] at hlen
    split at h
    · simp at h
    · rename_i b hb
      obtain ⟨h1, _, h3⟩ := hexDecode_ok s b hb
      simp only [Except.ok.injEq] at h
      subst h
      refine ⟨hlen, ?_⟩
      simp only [ObjectID.Hex]
      rw [copyToOID_val (by omega)]
      exact h3

theorem ObjectIDFromHex_Hex (id : ObjectID) : ObjectIDFromHex id.Hex = .ok id := by
  have hl : id.Hex.length = 24 := by
    simp only [ObjectID.Hex, hexEncode_length, id.property]
  unfold ObjectIDFromHex
  simp only [hl, ne_eq, not_true_eq_false, ↓reduceIte]
  simp only [ObjectID.Hex, hexDecode_hexEncode]
  apply congrArg
  apply Subtype.ext
  exact copyToOID_val id.property

/-! ## The handlers, case by case -/

theorem GetUser_of_error {σ : Type} (uc : UserController σ) (J : Json) (r : Request)
    (p : Params) (c : Ctx σ) {e : HexError}
    (h : ObjectIDFromHex (Params.ByName p (lit "id")) = .error e) :
    uc.GetUser J r p c = { c with w := c.w.WriteHeader 404 } := by
  simp only [UserController.GetUser, h]

theorem GetUser_of_ok {σ : Type} (uc : UserController σ) (J : Json) (r : Request)
    (p : Params) (c : Ctx σ) {oid : ObjectID}
    (h : ObjectIDFromHex (Params.ByName p (lit "id")) = .ok oid) :
    uc.GetUser J r p c =
      match uc.Client.FindOne c.db oid with
      | .error _ =>
        { c with calls := c.calls ++ [StoreCall.findOne oid], w := c.w.WriteHeader 404 }
      | .ok _ =>
        match J.Marshal User.zero with
        | .error err =>
          { c with
            calls := c.calls ++ [StoreCall.findOne oid]
            stdout := c.stdout ++ [err ++ lit "\n"]
            w := (((c.w.HeaderSet (lit "Content-Type") (lit "application/json")).WriteHeader
              200).Write (lit "\n")) }
        | .ok uj =>
          { c with
            calls := c.calls ++ [StoreCall.findOne oid]
            w := (((c.w.HeaderSet (lit "Content-Type") (lit "application/json")).WriteHeader
              200).Write (uj ++ lit "\n")) } := by
  simp only [UserController.GetUser, h]
  cases uc.Client.FindOne c.db oid with
  | error e => rfl
  | ok u =>
    cases J.Marshal User.zero with
    | error err => rfl
    | ok uj => rfl

theorem DeleteUser_of_error {σ : Type} (uc : UserController σ) (r : Request)
    (p : Params) (c : Ctx σ) {e : HexError}
    (h : ObjectIDFromHex (Params.ByName p (lit "id")) = .error e) :
    uc.DeleteUser r p c = { c with w := c.w.WriteHeader 404 } := by
  simp only [UserController.DeleteUser, h]

theorem DeleteUser_of_ok {σ : Type} (uc : UserController σ) (r : Request)
    (p : Params) (c : Ctx σ) {oid : ObjectID}
    (h : ObjectIDFromHex (Params.ByName p (lit "id")) = .ok oid) :
    uc.DeleteUser r p c =
      match (uc.Client.DeleteOne c.db oid).2 with
      | .error _ =>
        { c with
          db := (uc.Client.DeleteOne c.db oid).1
          calls := c.calls ++ [StoreCall.deleteOne oid]
          w := c.w.WriteHeader 404 }
      | .ok n =>
        if n = 0 then
          { c with
            db := (uc.Client.DeleteOne c.db oid).1
            calls := c.calls ++ [StoreCall.deleteOne oid]
            w := c.w.WriteHeader 404 }
        else
          { c with
            db := (uc.Client.DeleteOne c.db oid).1
            calls := c.calls ++ [StoreCall.deleteOne oid]
            w := (c.w.WriteHeader 200).Write (lit "Deleted user" ++ oid.String ++ lit "\n") } := by
  simp only [UserController.DeleteUser, h]

theorem CreateUser_eq {σ : Type} (uc : UserController σ) (J : Json) (fresh : ObjectID)
    (r : Request) (p : Params) (c : Ctx σ) :
    uc.CreateUser J fresh r p c =
      match J.Marshal { (J.Decode r.Body User.zero).1 with ID := fresh } with
      | .error _ =>
        { c with
          db := (uc.Client.InsertOne c.db { (J.Decode r.Body User.zero).1 with ID := fresh }).1
          calls := c.calls ++
            [StoreCall.insertOne { (J.Decode r.Body User.zero).1 with ID := fresh }] }
      | .ok uj =>
        { c with
          db := (uc.Client.InsertOne c.db { (J.Decode r.Body User.zero).1 with ID := fresh }).1
          calls := c.calls ++
            [StoreCall.insertOne { (J.Decode r.Body User.zero).1 with ID := fresh }]
          stdout := c.stdout ++ [uj ++ lit "\n"]
          w := ((c.w.HeaderSet (lit "Content-Type") (lit "application/json")).WriteHeader
            201).Write (uj ++ lit "\n") } := by
  simp only [UserController.CreateUser]
  cases J.Marshal { (J.Decode r.Body User.zero).1 with ID := fresh } with
  | error e => rfl
  | ok uj => rfl

theorem start_writeHeader {σ : Type} (db : σ) (code : Nat) :
    ((Ctx.start db).w.WriteHeader code).status = some code ∧
      ((Ctx.start db).w.WriteHeader code).body = [] := by
  simp [Ctx.start, ResponseWriter.new, ResponseWriter.WriteHeader]

/-! ## The identifier validator -/

/-- C1: for every string, `ObjectIDFromHex` succeeds if and only if the string is
exactly 24 hexadecimal characters (and fails otherwise); when it succeeds, the hex
encoding of the returned 12 bytes is the string with its letters lower-cased; and
decoding the hex encoding of any 12-byte identifier gives back that identifier. -/
theorem ObjectIDFromHex_hex24_roundtrip :
    (∀ s : GoString, (∃ id, ObjectIDFromHex s = .ok id) ↔ isHex24 s = true) ∧
    (∀ s : GoString, (∃ e, ObjectIDFromHex s = .error e) ↔ isHex24 s = false) ∧
    (∀ (s : GoString) (id : ObjectID), ObjectIDFromHex s = .ok id →
      id.val.length = 12 ∧ id.Hex = s.map toLower) ∧
    (∀ id : ObjectID, ObjectIDFromHex id.Hex = .ok id) :=
  ⟨ObjectIDFromHex_ok_iff, ObjectIDFromHex_error_iff,
    fun _ id h => ⟨id.property, (ObjectIDFromHex_ok_hex h).2⟩, ObjectIDFromHex_Hex⟩

/-! ## Fetch -/

/-- C2: when the id path parameter is not a valid 24-hex identifier, `GetUser`
issues no call on the store, leaves the store as it was, writes no body, and on a
fresh response writes status 404. -/
theorem GetUser_malformed_id {σ : Type} (uc : UserController σ) (J : Json) (r : Request)
    (p : Params) (c : Ctx σ) (h : isHex24 (Params.ByName p (lit "id")) = false) :
    (uc.GetUser J r p c).calls = c.calls ∧
    (uc.GetUser J r p c).db = c.db ∧
    (uc.GetUser J r p c).w.body = c.w.body ∧
    (uc.GetUser J r p (Ctx.start c.db)).w.status = some 404 ∧
    (uc.GetUser J r p (Ctx.start c.db)).calls = [] ∧
    (uc.GetUser J r p (Ctx.start c.db)).w.body = [] := by
  obtain ⟨e, he⟩ := (ObjectIDFromHex_error_iff _).mpr h
  rw [GetUser_of_error uc J r p c he, GetUser_of_error uc J r p (Ctx.start c.db) he]
  refine ⟨rfl, rfl, ?_, ?_, rfl, ?_⟩
  · simp only [ResponseWriter.WriteHeader]
    split <;> rfl
  · exact (start_writeHeader c.db 404).1
  · exact (start_writeHeader c.db 404).2

/-- C2 at the ids `abc` and the empty string, on the empty reference store. -/
theorem GetUser_malformed_id_witness :
    (isHex24 (Params.ByName [(lit "id", lit "abc")] (lit "id")) = false ∧
      ((NewUserController mapCollection).GetUser sampleJson ⟨lit "GET", lit "/", []⟩
        [(lit "id", lit "abc")] (Ctx.start MapStore.empty)).w.status = some 404) ∧
    (isHex24 (Params.ByName [] (lit "id")) = false ∧
      ((NewUserController mapCollection).GetUser sampleJson ⟨lit "GET", lit "/", []⟩
        [] (Ctx.start MapStore.empty)).calls = []) :=
  ⟨⟨by decide, (GetUser_malformed_id (NewUserController mapCollection) sampleJson
      ⟨lit "GET", lit "/", []⟩ [(lit "id", lit "abc")] (Ctx.start MapStore.empty)
      (by decide)).2.2.2.1⟩,
    ⟨by decide, (GetUser_malformed_id (NewUserController mapCollection) sampleJson
      ⟨lit "GET", lit "/", []⟩ [] (Ctx.start MapStore.empty) (by decide)).2.2.2.2.1⟩⟩

/-! ## Delete -/

/-- C3: on a fresh response, `DeleteUser` writes status 200 exactly when the id is a
valid 24-hex identifier and the store's delete returns no error and a count of at
least one; in every other case it writes status 404 and no body; and on the 200 path
one delete for the decoded identifier was issued and the body is
`Deleted userObjectID("<hex>")` with the 24-character hex form of that identifier. -/
theorem DeleteUser_status {σ : Type} (uc : UserController σ) (r : Request) (p : Params)
    (db : σ) :
    ((uc.DeleteUser r p (Ctx.start db)).w.status = some 200 ↔
      isHex24 (Params.ByName p (lit "id")) = true ∧
      ∃ oid n, ObjectIDFromHex (Params.ByName p (lit "id")) = .ok oid ∧
        (uc.Client.DeleteOne db oid).2 = .ok n ∧ 1 ≤ n) ∧
    ((uc.DeleteUser r p (Ctx.start db)).w.status ≠ some 200 →
      (uc.DeleteUser r p (Ctx.start db)).w.status = some 404 ∧
      (uc.DeleteUser r p (Ctx.start db)).w.body = []) ∧
    ((uc.DeleteUser r p (Ctx.start db)).w.status = some 200 →
      ∃ oid, ObjectIDFromHex (Params.ByName p (lit "id")) = .ok oid ∧
        (uc.DeleteUser r p (Ctx.start db)).calls = [StoreCall.deleteOne oid] ∧
        oid.Hex.length = 24 ∧
        oid.Hex = (Params.ByName p (lit "id")).map toLower ∧
        oid.Hex <:+: (uc.DeleteUser r p (Ctx.start db)).w.body ∧
        (uc.DeleteUser r p (Ctx.start db)).w.body =
          lit "Deleted user" ++ (lit "ObjectID(\"" ++ oid.Hex ++ lit "\")") ++ lit "\n") := by
  cases hid : ObjectIDFromHex (Params.ByName p (lit "id")) with
  | error e =>
    have hbad : isHex24 (Params.ByName p (lit "id")) = false :=
      (ObjectIDFromHex_error_iff _).mp ⟨e, hid⟩
    rw [DeleteUser_of_error uc r p _ hid]
    have h404 := start_writeHeader db 404
    simp only [h404.1, h404.2, hbad]
    simp
  | ok oid =>
    have hgood : isHex24 (Params.ByName p (lit "id")) = true :=
      (ObjectIDFromHex_ok_iff _).mp ⟨oid, hid⟩
    have hhex := ObjectIDFromHex_ok_hex hid
    rw [DeleteUser_of_ok uc r p _ hid]
    have h404 := start_writeHeader db 404
    cases hres : (uc.Client.DeleteOne (Ctx.start db).db oid).2 with
    | error e =>
      have hres2 : (uc.Client.DeleteOne db oid).2 = .error e := hres
      simp only [h404.1, h404.2, hgood, hres2]
      simp [hres2]
    | ok n =>
      have hres2 : (uc.Client.DeleteOne db oid).2 = .ok n := hres
      by_cases hn : n = 0
      · simp only [hn, ↓reduceIte, h404.1, h404.2, hgood, hres2]
        simp [hres2, hn]
      · have hst : (((Ctx.start db).w.WriteHeader 200).Write
            (lit "Deleted user" ++ oid.String ++ lit "\n")).status = some 200 := by
          simp [Ctx.start, ResponseWriter.new, ResponseWriter.WriteHeader, ResponseWriter.Write]
        have hbody : (((Ctx.start db).w.WriteHeader 200).Write
            (lit "Deleted user" ++ oid.String ++ lit "\n")).body
              = lit "Deleted user" ++ oid.String ++ lit "\n" := by
          simp [Ctx.start, ResponseWriter.new, ResponseWriter.WriteHeader, ResponseWriter.Write]
        simp only [hn, ↓reduceIte, hst, hbody, hgood, hres2]
        refine ⟨?_, ?_, ?_⟩
        · simp only [true_iff, true_and]
          exact ⟨oid, n, rfl, hres2, by omega⟩
        · simp
        · intro _
          refine ⟨oid, rfl, rfl, ?_, hhex.2, ?_, rfl⟩
          · rw [hhex.2, List.length_map, hhex.1]
          · exact ⟨lit "Deleted user" ++ lit "ObjectID(\"", lit "\")" ++ lit "\n", by
              simp [ObjectID.String, List.append_assoc]⟩

/-! ## Create -/

theorem start_created {σ : Type} (db : σ) (b : GoString) :
    ((((Ctx.start db).w.HeaderSet (lit "Content-Type") (lit "application/json")).WriteHeader
      201).Write b).status = some 201 ∧
    ((((Ctx.start db).w.HeaderSet (lit "Content-Type") (lit "application/json")).WriteHeader
      201).Write b).body = b ∧
    ((((Ctx.start db).w.HeaderSet (lit "Content-Type") (lit "application/json")).WriteHeader
      201).Write b).sent = [(lit "Content-Type", lit "application/json")] := by
  simp [Ctx.start, ResponseWriter.new, ResponseWriter.WriteHeader, ResponseWriter.Write,
    ResponseWriter.HeaderSet]

/-- C4: whatever the request body decodes to, `CreateUser` sets the record's id to the
freshly generated identifier before the insert: the one call on the store is the
insert of the decoded record with its id replaced, and when that record serializes,
the response is 201 with exactly that record's JSON as body. The other fields are
those the decoder left. -/
theorem CreateUser_generated_id {σ : Type} (uc : UserController σ) (J : Json)
    (fresh : ObjectID) (r : Request) (p : Params) (db : σ) :
    ∃ u : User,
      u.ID = fresh ∧
      u.Name = (J.Decode r.Body User.zero).1.Name ∧
      u.Email = (J.Decode r.Body User.zero).1.Email ∧
      (uc.CreateUser J fresh r p (Ctx.start db)).calls = [StoreCall.insertOne u] ∧
      (uc.CreateUser J fresh r p (Ctx.start db)).db = (uc.Client.InsertOne db u).1 ∧
      ∀ uj, J.Marshal u = .ok uj →
        (uc.CreateUser J fresh r p (Ctx.start db)).w.status = some 201 ∧
        (uc.CreateUser J fresh r p (Ctx.start db)).w.body = uj ++ lit "\n" := by
  refine ⟨{ (J.Decode r.Body User.zero).1 with ID := fresh }, rfl, rfl, rfl, ?_, ?_, ?_⟩
  · rw [CreateUser_eq]
    split <;> rfl
  · rw [CreateUser_eq]
    split <;> rfl
  · intro uj huj
    rw [CreateUser_eq]
    simp only [huj]
    exact ⟨(start_created db _).1, (start_created db _).2.1⟩

/-- C4 on a request whose decoded record carries a client-supplied id: the inserted
record carries the generated one. -/
theorem CreateUser_generated_id_witness :
    ∃ u : User,
      u.ID = sampleID ∧ u.ID ≠ NilObjectID ∧
      ((NewUserController mapCollection).CreateUser
        { sampleJson with Decode := fun _ v => ({ v with ID := NilObjectID }, none) }
        sampleID ⟨lit "POST", lit "/user", lit "\x7b\x7d"⟩ [] (Ctx.start MapStore.empty)).calls
        = [StoreCall.insertOne u] := by
  obtain ⟨u, h1, _, _, h4, _⟩ := CreateUser_generated_id (NewUserController mapCollection)
    { sampleJson with Decode := fun _ v => ({ v with ID := NilObjectID }, none) }
    sampleID ⟨lit "POST", lit "/user", lit "\x7b\x7d"⟩ [] MapStore.empty
  exact ⟨u, h1, by rw [h1]; decide, h4⟩

/-- C9: `CreateUser` never reads the decoder's error. Whether or not the body decodes,
it issues exactly one call on the store, the insert of a record carrying the generated
id; provided `json.Marshal` does not fail on user records, it answers 201 with
`Content-Type: application/json`; and two decoders that leave the same record give the
same run, whatever errors they report. -/
theorem CreateUser_ignores_decode_error {σ : Type} (uc : UserController σ) (J : Json)
    (fresh : ObjectID) (r : Request) (p : Params) (db : σ) :
    (∃ u : User, u.ID = fresh ∧
      (uc.CreateUser J fresh r p (Ctx.start db)).calls = [StoreCall.insertOne u]) ∧
    ((∀ u, ∃ uj, J.Marshal u = .ok uj) →
      (uc.CreateUser J fresh r p (Ctx.start db)).w.status = some 201 ∧
      (uc.CreateUser J fresh r p (Ctx.start db)).w.sent
        = [(lit "Content-Type", lit "application/json")]) ∧
    (∀ err : Option GoError,
      uc.CreateUser { J with Decode := fun b v => ((J.Decode b v).1, err) } fresh r p
        (Ctx.start db) = uc.CreateUser J fresh r p (Ctx.start db)) := by
  refine ⟨⟨{ (J.Decode r.Body User.zero).1 with ID := fresh }, rfl, ?_⟩, ?_, ?_⟩
  · rw [CreateUser_eq]
    split <;> rfl
  · intro hJ
    obtain ⟨uj, huj⟩ := hJ { (J.Decode r.Body User.zero).1 with ID := fresh }
    rw [CreateUser_eq]
    simp only [huj]
    exact ⟨(start_created db _).1, (start_created db _).2.2⟩
  · intro err
    rfl

/-- C9 on a body that is not JSON: the decoder reports an error, and the run still
has one insert and status 201. -/
theorem CreateUser_ignores_decode_error_witness :
    (sampleJson.Decode (lit "not json") User.zero).2 ≠ none ∧
    ((NewUserController mapCollection).CreateUser sampleJson sampleID
      ⟨lit "POST", lit "/user", lit "not json"⟩ [] (Ctx.start MapStore.empty)).w.status
      = some 201 :=
  ⟨by decide, ((CreateUser_ignores_decode_error (NewUserController mapCollection) sampleJson
    sampleID ⟨lit "POST", lit "/user", lit "not json"⟩ [] MapStore.empty).2.1
    (fun _ => ⟨_, rfl⟩)).1⟩

/-- C7, the code at a failing input: the store's insert returns an error and
`CreateUser` still answers 201 with the record as body, where the claim asks for 500
and an error body. -/
theorem CreateUser_insert_error_answers_201 :
    (failingCollection.InsertOne () { User.zero with ID := sampleID }).2
      = some (lit "server selection error") ∧
    ((NewUserController failingCollection).CreateUser sampleJson sampleID
      ⟨lit "POST", lit "/user", lit "\x7b\"name\":\"Ada\",\"email\":\"ada@example.com\"\x7d"⟩
      [] (Ctx.start ())).w.status = some 201 ∧
    ((NewUserController failingCollection).CreateUser sampleJson sampleID
      ⟨lit "POST", lit "/user", lit "\x7b\"name\":\"Ada\",\"email\":\"ada@example.com\"\x7d"⟩
      [] (Ctx.start ())).w.body
      = lit ("\x7b\"id\":\"507f1f77bcf86cd799439011\",\"name\":\"Ada\"," ++
          "\"email\":\"ada@example.com\"\x7d\n") := by
  decide

/-! ## Create, then fetch -/

/-- C5, the code at a failing input: after `CreateUser` stored Ada under the generated
id, `GetUser` with that id finds the record, answers 200 with
`Content-Type: application/json`, and serializes the zero record `u`, not the record
`user` it found: the body has the nil id and empty fields. -/
theorem GetUser_after_create_serializes_zero_record :
    afterCreate.db sampleID = some ⟨sampleID, lit "Ada", lit "ada@example.com"⟩ ∧
    afterCreate.w.body = lit ("\x7b\"id\":\"507f1f77bcf86cd799439011\",\"name\":\"Ada\"," ++
      "\"email\":\"ada@example.com\"\x7d\n") ∧
    fetchAfterCreate.calls = [StoreCall.findOne sampleID] ∧
    fetchAfterCreate.w.status = some 200 ∧
    fetchAfterCreate.w.sent = [(lit "Content-Type", lit "application/json")] ∧
    fetchAfterCreate.w.body
      = lit "\x7b\"id\":\"000000000000000000000000\",\"name\":\"\",\"email\":\"\"\x7d\n" ∧
    fetchAfterCreate.w.body ≠ afterCreate.w.body := by
  decide

/-- On its 200 path `GetUser` writes the serialization of the zero record, whatever
record the store returned. -/
theorem GetUser_body_is_zero_record {σ : Type} (uc : UserController σ) (J : Json)
    (r : Request) (p : Params) (db : σ) (oid : ObjectID) (found : User) (uj : GoString)
    (hid : ObjectIDFromHex (Params.ByName p (lit "id")) = .ok oid)
    (hfound : uc.Client.FindOne db oid = .ok found)
    (hm : J.Marshal User.zero = .ok uj) :
    (uc.GetUser J r p (Ctx.start db)).w.status = some 200 ∧
    (uc.GetUser J r p (Ctx.start db)).w.body = uj ++ lit "\n" := by
  have hfound2 : uc.Client.FindOne (Ctx.start db).db oid = .ok found := hfound
  rw [GetUser_of_ok uc J r p _ hid]
  simp only [hfound2, hm]
  simp [Ctx.start, ResponseWriter.new, ResponseWriter.WriteHeader, ResponseWriter.Write,
    ResponseWriter.HeaderSet]

/-! ## Delete, then fetch -/

theorem GetUser_absent_404 (J : Json) (r : Request) (p : Params) (db : MapStore)
    (oid : ObjectID) (hid : ObjectIDFromHex (Params.ByName p (lit "id")) = .ok oid)
    (habs : db oid = none) :
    ((NewUserController mapCollection).GetUser J r p (Ctx.start db)).w.status = some 404 ∧
    ((NewUserController mapCollection).GetUser J r p (Ctx.start db)).w.body = [] := by
  rw [GetUser_of_ok _ J r p _ hid]
  have hf : (NewUserController mapCollection).Client.FindOne (Ctx.start db).db oid
      = .error (lit "mongo: no documents in result") := by
    show mapCollection.FindOne db oid = _
    simp only [mapCollection, habs]
  simp only [hf]
  exact start_writeHeader db 404

theorem mapCollection_delete_present (db : MapStore) (oid : ObjectID) (u : User)
    (h : db oid = some u) :
    (mapCollection.DeleteOne db oid).2 = .ok 1 ∧ (mapCollection.DeleteOne db oid).1 oid = none := by
  simp [mapCollection, h]

theorem mapCollection_delete_absent (db : MapStore) (oid : ObjectID) (h : db oid = none) :
    (mapCollection.DeleteOne db oid).2 = .ok 0 ∧ (mapCollection.DeleteOne db oid).1 = db := by
  simp [mapCollection, h]

/-- C6: on the map store, for every store state and every valid id present in it,
`DeleteUser` answers 200 and removes the key, and a following `GetUser` with the same
id issues its query and answers 404 with no body. -/
theorem delete_then_get_not_found (J : Json) (r1 r2 : Request) (p : Params) (db : MapStore)
    (oid : ObjectID) (u : User)
    (hid : ObjectIDFromHex (Params.ByName p (lit "id")) = .ok oid)
    (hpresent : db oid = some u) :
    ((NewUserController mapCollection).DeleteUser r1 p (Ctx.start db)).w.status = some 200 ∧
    ((NewUserController mapCollection).DeleteUser r1 p (Ctx.start db)).db oid = none ∧
    ((NewUserController mapCollection).GetUser J r2 p
      (Ctx.start ((NewUserController mapCollection).DeleteUser r1 p (Ctx.start db)).db)).w.status
      = some 404 ∧
    ((NewUserController mapCollection).GetUser J r2 p
      (Ctx.start ((NewUserController mapCollection).DeleteUser r1 p (Ctx.start db)).db)).w.body
      = [] := by
  obtain ⟨hd2, hd1⟩ := mapCollection_delete_present db oid u hpresent
  have hdel : (NewUserController mapCollection).DeleteUser r1 p (Ctx.start db) =
      { Ctx.start db with
        db := (mapCollection.DeleteOne db oid).1
        calls := [StoreCall.deleteOne oid]
        w := ((Ctx.start db).w.WriteHeader 200).Write
          (lit "Deleted user" ++ oid.String ++ lit "\n") } := by
    rw [DeleteUser_of_ok _ r1 p _ hid]
    have : ((NewUserController mapCollection).Client.DeleteOne (Ctx.start db).db oid).2
        = .ok 1 := hd2
    simp only [this]
    rfl
  rw [hdel]
  refine ⟨?_, hd1, ?_, ?_⟩
  · simp [Ctx.start, ResponseWriter.new, ResponseWriter.WriteHeader, ResponseWriter.Write]
  · exact (GetUser_absent_404 J r2 p _ oid hid hd1).1
  · exact (GetUser_absent_404 J r2 p _ oid hid hd1).2

/-- C6 on the store that holds Ada under `sampleID`. -/
theorem delete_then_get_not_found_witness :
    ObjectIDFromHex (Params.ByName [(lit "id", lit "507f1f77bcf86cd799439011")] (lit "id"))
      = .ok sampleID ∧
    afterCreate.db sampleID = some ⟨sampleID, lit "Ada", lit "ada@example.com"⟩ ∧
    ((NewUserController mapCollection).GetUser sampleJson ⟨lit "GET", lit "/", []⟩
      [(lit "id", lit "507f1f77bcf86cd799439011")]
      (Ctx.start ((NewUserController mapCollection).DeleteUser
        ⟨lit "DELETE", lit "/user/507f1f77bcf86cd799439011", []⟩
        [(lit "id", lit "507f1f77bcf86cd799439011")] (Ctx.start afterCreate.db)).db)).w.status
      = some 404 :=
  ⟨by decide, by decide,
    (delete_then_get_not_found sampleJson
      ⟨lit "DELETE", lit "/user/507f1f77bcf86cd799439011", []⟩ ⟨lit "GET", lit "/", []⟩
      [(lit "id", lit "507f1f77bcf86cd799439011")] afterCreate.db sampleID
      ⟨sampleID, lit "Ada", lit "ada@example.com"⟩ (by decide) (by decide)).2.2.1⟩

/-! ## Startup -/

theorem getMongoClient_result {κ : Type} (d : Driver κ) (c : κ) :
    (getMongoClient d).result = some c ↔
      d.Connect (lit "mongodb://localhost:27017") = .ok c ∧ d.Ping c = none := by
  cases hc : d.Connect (lit "mongodb://localhost:27017") with
  | error e => simp [getMongoClient, hc]
  | ok client =>
    cases hp : d.Ping client with
    | some e =>
      simp only [getMongoClient, hc, hp, reduceCtorEq, Except.ok.injEq, false_iff, not_and]
      intro h
      rw [← h, hp]
      simp
    | none =>
      simp only [getMongoClient, hc, hp, Option.some.injEq, Except.ok.injEq]
      constructor
      · intro h
        exact ⟨h, h ▸ hp⟩
      · intro h
        exact h.1

theorem main_eq {κ : Type} (d : Driver κ) :
    main d =
      match (getMongoClient d).result with
      | none => ⟨(getMongoClient d).trace, none⟩
      | some _ =>
        ⟨(getMongoClient d).trace ++
          [.handle (lit "GET") (lit "/"), .handle (lit "POST") (lit "/user"),
            .handle (lit "DELETE") (lit "/user/:id"), .listenAndServe (lit ":8080")],
          some mainRoutes⟩ := by
  unfold main
  rcases getMongoClient d with ⟨t, _ | c⟩ <;> rfl

theorem getMongoClient_trace {κ : Type} (d : Driver κ) :
    (∀ m q, Event.handle m q ∉ (getMongoClient d).trace) ∧
    (∀ a, Event.listenAndServe a ∉ (getMongoClient d).trace) ∧
    ((getMongoClient d).result = none →
      ∃ e, (getMongoClient d).trace.getLast? = some (.fatal e)) := by
  cases hc : d.Connect (lit "mongodb://localhost:27017") with
  | error e => simp [getMongoClient, hc]
  | ok client =>
    cases hp : d.Ping client with
    | some e => simp [getMongoClient, hc, hp]
    | none => simp [getMongoClient, hc, hp]

/-- C8: `getMongoClient` returns a client only when both the connect call and the ping
succeed, and then it is the connected client. `main` registers its routes and reaches
`ListenAndServe` only after the events of `getMongoClient`, and only when it returned a
client; if the connect call or the ping fails, the run ends in `log.Fatal` with no
route registered and no server started. -/
theorem startup_fatal_on_store_failure {κ : Type} (d : Driver κ) :
    (∀ c, (getMongoClient d).result = some c ↔
      d.Connect (lit "mongodb://localhost:27017") = .ok c ∧ d.Ping c = none) ∧
    ((∃ c, d.Connect (lit "mongodb://localhost:27017") = .ok c ∧ d.Ping c = none) →
      (main d).result = some mainRoutes ∧
      (main d).trace = (getMongoClient d).trace ++
        [.handle (lit "GET") (lit "/"), .handle (lit "POST") (lit "/user"),
          .handle (lit "DELETE") (lit "/user/:id"), .listenAndServe (lit ":8080")]) ∧
    ((¬ ∃ c, d.Connect (lit "mongodb://localhost:27017") = .ok c ∧ d.Ping c = none) →
      (main d).result = none ∧
      (∃ e, (main d).trace.getLast? = some (.fatal e)) ∧
      (∀ m q, Event.handle m q ∉ (main d).trace) ∧
      (∀ a, Event.listenAndServe a ∉ (main d).trace)) := by
  obtain ⟨ht1, ht2, ht3⟩ := getMongoClient_trace d
  refine ⟨getMongoClient_result d, ?_, ?_⟩
  · rintro ⟨c, hc⟩
    have h := (getMongoClient_result d c).mpr hc
    rw [main_eq, h]
    exact ⟨rfl, rfl⟩
  · intro hno
    have h : (getMongoClient d).result = none := by
      cases hr : (getMongoClient d).result with
      | none => rfl
      | some c => exact absurd ⟨c, (getMongoClient_result d c).mp hr⟩ hno
    rw [main_eq, h]
    exact ⟨rfl, ht3 h, ht1, ht2⟩

/-- C8 on a driver that connects and whose ping fails, and on one where both succeed. -/
theorem startup_fatal_on_store_failure_witness :
    (main (⟨fun _ => .ok (), fun _ => some (lit "ping failed")⟩ : Driver Unit)).result = none ∧
    (main (⟨fun _ => .ok (), fun _ => none⟩ : Driver Unit)).result = some mainRoutes :=
  ⟨((startup_fatal_on_store_failure
      (⟨fun _ => .ok (), fun _ => some (lit "ping failed")⟩ : Driver Unit)).2.2
      (by simp)).1,
    ((startup_fatal_on_store_failure (⟨fun _ => .ok (), fun _ => none⟩ : Driver Unit)).2.1
      ⟨(), rfl, rfl⟩).1⟩

/-! ## Routing -/

theorem splitSlash_ne_nil (s : GoString) : splitSlash s ≠ [] := by
  cases s with
  | nil => simp [splitSlash]
  | cons c cs =>
    simp only [splitSlash]
    split
    · simp
    · split <;> simp

theorem splitSlash_singleton_nil {s : GoString} (h : splitSlash s = [[]]) : s = [] := by
  cases s with
  | nil => rfl
  | cons c cs =>
    simp only [splitSlash] at h
    split at h
    · simp only [List.cons.injEq, true_and] at h
      exact absurd h (splitSlash_ne_nil cs)
    · split at h <;> simp at h

theorem splitSlash_root {s : GoString} (h : splitSlash s = [[], []]) : s = lit "/" := by
  cases s with
  | nil => simp [splitSlash] at h
  | cons c cs =>
    simp only [splitSlash] at h
    split at h
    · rename_i hc
      simp only [List.cons.injEq, true_and] at h
      rw [hc, splitSlash_singleton_nil h]
      decide
    · split at h <;> simp at h

theorem matchSegs_root {segs : List GoString} {ps : Params}
    (h : matchSegs [[], []] segs = some ps) : segs = [[], []] ∧ ps = [] := by
  match segs, h with
  | [], h => simp [matchSegs] at h
  | [a], h => simp [matchSegs] at h
  | [a, b], h =>
    simp only [matchSegs] at h
    split at h
    · rename_i h1
      split at h
      · rename_i h2
        simp only [Option.some.injEq] at h
        exact ⟨by rw [← h1, ← h2], h.symm⟩
      · simp at h
    · simp at h
  | a :: b :: c :: rest, h =>
    simp only [matchSegs] at h
    split at h
    · split at h <;> simp at h
    · simp at h

theorem lookup_GET {path : GoString} {h : HandlerId} {ps : Params}
    (hl : mainRoutes.lookup (lit "GET") path = some (h, ps)) :
    h = .getUser ∧ ps = [] ∧ path = lit "/" := by
  have e1 : splitSlash (lit "/") = [[], []] := by decide
  have m1 : (lit "POST" = lit "GET") = False := by decide
  have m2 : (lit "DELETE" = lit "GET") = False := by decide
  simp only [mainRoutes, Router.New, Router.Handle, List.nil_append, List.cons_append,
    Router.lookup, e1, m1, m2, ↓reduceIte] at hl
  split at hl
  · rename_i ps1 hm
    obtain ⟨hs, hp⟩ := matchSegs_root hm
    simp only [Option.some.injEq, Prod.mk.injEq] at hl
    exact ⟨hl.1.symm, by rw [← hl.2, hp], splitSlash_root hs⟩
  · simp at hl

theorem lookup_getUser {method path : GoString} {ps : Params}
    (hl : mainRoutes.lookup method path = some (.getUser, ps)) :
    method = lit "GET" ∧ path = lit "/" ∧ ps = [] := by
  have e1 : splitSlash (lit "/") = [[], []] := by decide
  simp only [mainRoutes, Router.New, Router.Handle, List.nil_append, List.cons_append,
    Router.lookup, e1] at hl
  split at hl
  · rename_i hm
    split at hl
    · rename_i ps1 hms
      obtain ⟨hs, hp⟩ := matchSegs_root hms
      simp only [Option.some.injEq, Prod.mk.injEq, true_and] at hl
      exact ⟨hm.symm, splitSlash_root hs, by rw [← hl, hp]⟩
    · split at hl
      · split at hl
        · simp at hl
        · split at hl
          · split at hl <;> simp at hl
          · simp at hl
      · split at hl
        · split at hl <;> simp at hl
        · simp at hl
  · split at hl
    · split at hl
      · simp at hl
      · split at hl
        · split at hl <;> simp at hl
        · simp at hl
    · split at hl
      · split at hl <;> simp at hl
      · simp at hl

/-- C10: in the router `main` builds, the only `GET` route is the parameterless `/`.
A request the router hands to `GetUser` is a `GET` of path `/` with no parameter
bound, so the id `GetUser` reads is the empty string; every matched `GET` request is
therefore answered 404 with no body and no call on the store, whatever the store
holds; and `GET /user/<id>` matches no route of the router, for every id. -/
theorem GET_never_fetches {σ : Type} (uc : UserController σ) (J : Json) (fresh : ObjectID) :
    mainRoutes.filter (fun rt => rt.method = lit "GET") = [⟨lit "GET", lit "/", .getUser⟩] ∧
    (∀ method path ps, mainRoutes.lookup method path = some (.getUser, ps) →
      method = lit "GET" ∧ path = lit "/" ∧ ps = [] ∧ Params.ByName ps (lit "id") = []) ∧
    (∀ path h ps, mainRoutes.lookup (lit "GET") path = some (h, ps) →
      h = .getUser ∧ ps = [] ∧ path = lit "/") ∧
    (∀ (r : Request) (db : σ) (c : Ctx σ), r.Method = lit "GET" →
      serveMatched uc J fresh mainRoutes r (Ctx.start db) = some c →
      c.w.status = some 404 ∧ c.w.body = [] ∧ c.calls = [] ∧ c.db = db) ∧
    (∀ id : GoString, mainRoutes.lookup (lit "GET") (lit "/user/" ++ id) = none) := by
  refine ⟨by decide, ?_, ?_, ?_, ?_⟩
  · intro method path ps hl
    obtain ⟨h1, h2, h3⟩ := lookup_getUser hl
    exact ⟨h1, h2, h3, by rw [h3]; rfl⟩
  · intro path h ps hl
    exact lookup_GET hl
  · intro r db c hm hs
    unfold serveMatched at hs
    rw [hm] at hs
    split at hs
    · rename_i h ps hl
      obtain ⟨h1, h2, _⟩ := lookup_GET hl
      subst h1 h2
      simp only [Option.some.injEq] at hs
      subst hs
      have herr : ObjectIDFromHex (Params.ByName [] (lit "id")) = .error .errInvalidHex := by
        decide
      simp only [invoke]
      rw [GetUser_of_error uc J r [] _ herr]
      exact ⟨(start_writeHeader db 404).1, (start_writeHeader db 404).2, rfl, rfl⟩
    · simp at hs
  · intro id
    cases hl : mainRoutes.lookup (lit "GET") (lit "/user/" ++ id) with
    | none => rfl
    | some hp =>
      obtain ⟨h, ps⟩ := hp
      have h3 := (lookup_GET hl).2.2
      have : (lit "/user/" ++ id).length = (lit "/").length := by rw [h3]
      simp only [List.length_append] at this
      have l1 : (lit "/user/").length = 6 := by decide
      have l2 : (lit "/").length = 1 := by decide
      omega

/-- C10 on the empty reference store: `GET /` is answered 404, and
`GET /user/507f1f77bcf86cd799439011` matches nothing. -/
theorem GET_never_fetches_witness :
    serveMatched (NewUserController mapCollection) sampleJson sampleID mainRoutes
      ⟨lit "GET", lit "/", []⟩ (Ctx.start MapStore.empty)
      = some ((NewUserController mapCollection).GetUser sampleJson ⟨lit "GET", lit "/", []⟩ []
          (Ctx.start MapStore.empty)) ∧
    ((NewUserController mapCollection).GetUser sampleJson ⟨lit "GET", lit "/", []⟩ []
      (Ctx.start MapStore.empty)).w.status = some 404 ∧
    mainRoutes.lookup (lit "GET") (lit "/user/" ++ lit "507f1f77bcf86cd799439011") = none :=
  ⟨rfl,
    ((GET_never_fetches (NewUserController mapCollection) sampleJson sampleID).2.2.2.1
      ⟨lit "GET", lit "/", []⟩ MapStore.empty _ rfl rfl).1,
    (GET_never_fetches (NewUserController mapCollection) sampleJson sampleID).2.2.2.2
      (lit "507f1f77bcf86cd799439011")⟩

end UserApi
